import Mathlib

/-
  Verification development for the `trash-rs` crate (src/lib.rs and
  src/windows.rs).  The Rust code is shallowly embedded: paths become lists
  of components, the `TrashItem` record and the `ErrorKind` taxonomy are
  mirrored structurally, fallible operations return `Except`, and the
  Windows shell/COM backend is modelled as a state-passing computation that
  records the sequence of native calls it issues and consults an
  environment (`NativeEnv`) for the HRESULT of each successive call.
-/

set_option autoImplicit false

namespace Trash

/-- A filesystem path, modelled as its list of components
(Rust `PathBuf`).  Joining appends components. -/
abbrev FsPath := List String

/-- `Path::join` of a parent path with a file name
(the name contributes one component). -/
def FsPath.join (p : FsPath) (name : String) : FsPath := p ++ [name]

/-- Mirror of `TrashItem` in src/lib.rs: system-specific `id`, display
`name`, `original_parent` path, and deletion time in Unix epoch seconds. -/
structure TrashItem where
  id : String
  name : String
  original_parent : FsPath
  time_deleted : Int
deriving DecidableEq, Repr

/-- `TrashItem::original_path` in src/lib.rs: joins `original_parent`
and `name`. -/
def TrashItem.original_path (item : TrashItem) : FsPath :=
  item.original_parent.join item.name

/-- The `PartialEq for TrashItem` impl in src/lib.rs: equality compares
only the `id` field. -/
def TrashItem.beq (a b : TrashItem) : Bool := a.id == b.id

/-- The `Hash for TrashItem` impl in src/lib.rs: feed only `id` to the
hasher.  `H` is the hasher state, `idHash` is `OsString::hash`. -/
def TrashItem.hashOnly {H : Type} (idHash : String → H → H)
    (item : TrashItem) (state : H) : H :=
  idHash item.id state

/-- Mirror of `ErrorKind` in src/lib.rs. -/
inductive ErrorKind where
  | PlatformApi (function_name : String) (code : Option Int)
  | CanonicalizePath (original : FsPath)
  | ConvertOsString (original : String)
  | Filesystem (path : FsPath)
  | RestoreCollision (path : FsPath) (remaining_items : List TrashItem)
  | RestoreTwins (path : FsPath) (items : List TrashItem)
deriving DecidableEq, Repr

/-- The twin-detection loop of `restore_all` in src/lib.rs: walk the batch
keeping the set of `original_path()`s seen so far (the `HashSet` of
`ItemWrapper`s); the first item whose path was already seen yields that
path. -/
def find_twin : List FsPath → List TrashItem → Option FsPath
  | _, [] => none
  | seen, item :: rest =>
    if item.original_path ∈ seen then some item.original_path
    else find_twin (item.original_path :: seen) rest

/-- `restore_all` in src/lib.rs: collect the batch, fail with
`RestoreTwins` (carrying the whole batch) on the first duplicated
`original_path()`, otherwise hand the batch unchanged to the platform
backend. -/
def restore_all (backend : List TrashItem → Except ErrorKind Unit)
    (items : List TrashItem) : Except ErrorKind Unit :=
  match find_twin [] items with
  | some path => Except.error (ErrorKind.RestoreTwins path items)
  | none => backend items

/-- Rust `u64 as i64`: reduce modulo 2^64 and reinterpret as two's
complement. -/
def u64_to_i64 (n : Nat) : Int :=
  if n % 18446744073709551616 < 9223372036854775808 then
    ((n % 18446744073709551616 : Nat) : Int)
  else
    ((n % 18446744073709551616 : Nat) : Int) - 18446744073709551616

/-- Wrap-around of a mathematical integer into the `i64` range, modelling
two's-complement arithmetic on the subtraction result. -/
def i64_wrap (x : Int) : Int :=
  (x + 9223372036854775808) % 18446744073709551616 - 9223372036854775808

/-- `windows_ticks_to_unix_seconds` in src/windows.rs: divide the
100-nanosecond tick count by 10^7, cast to `i64`, then subtract the
Windows-epoch-to-Unix-epoch offset in seconds. -/
def windows_ticks_to_unix_seconds (windows_ticks : Nat) : Int :=
  i64_wrap (u64_to_i64 (windows_ticks / 10000000) - 11644473600)

/-- The native shell/COM entry points invoked by src/windows.rs. -/
inductive NativeCall where
  | SHGetSpecialFolderLocation
  | SHGetDesktopFolder
  | BindToObject
  | QueryInterface
  | CoCreateInstance
  | SetOperationFlags
  | SHCreateItemFromParsingName
  | ParseDisplayName
  | SHCreateItemWithParent
  | DeleteItem
  | MoveItem
  | PerformOperations
  | EnumObjects
  | NextItem
  | GetDisplayNameOf
  | StrRetToStrW
  | GetDetailsEx
  | VariantChangeType
  | VariantTimeToSystemTime
  | SystemTimeToFileTime
deriving DecidableEq, Repr

/-- Function name of a native call, as used in `PlatformApi` errors. -/
def NativeCall.fnName : NativeCall → String
  | .SHGetSpecialFolderLocation => "SHGetSpecialFolderLocation"
  | .SHGetDesktopFolder => "SHGetDesktopFolder"
  | .BindToObject => "BindToObject"
  | .QueryInterface => "QueryInterface"
  | .CoCreateInstance => "CoCreateInstance"
  | .SetOperationFlags => "SetOperationFlags"
  | .SHCreateItemFromParsingName => "SHCreateItemFromParsingName"
  | .ParseDisplayName => "ParseDisplayName"
  | .SHCreateItemWithParent => "SHCreateItemWithParent"
  | .DeleteItem => "DeleteItem"
  | .MoveItem => "MoveItem"
  | .PerformOperations => "PerformOperations"
  | .EnumObjects => "EnumObjects"
  | .NextItem => "Next"
  | .GetDisplayNameOf => "GetDisplayNameOf"
  | .StrRetToStrW => "StrRetToStrW"
  | .GetDetailsEx => "GetDetailsEx"
  | .VariantChangeType => "VariantChangeType"
  | .VariantTimeToSystemTime => "VariantTimeToSystemTime"
  | .SystemTimeToFileTime => "SystemTimeToFileTime"

/-- Calls that register or perform a delete/move (everything else only
enumerates or queries properties). -/
def NativeCall.isMutation : NativeCall → Bool
  | .DeleteItem => true
  | .MoveItem => true
  | .PerformOperations => true
  | _ => false

/-- The Windows `SUCCEEDED` test on an HRESULT: non-negative. -/
def SUCCEEDED (hr : Int) : Bool := decide (0 ≤ hr)

/-- The `return_err_on_fail!` construct in src/windows.rs: a failing
HRESULT becomes a `PlatformApi` error carrying the call's name and the
numeric status; a succeeding HRESULT is passed through. -/
def return_err_on_fail (fname : String) (hr : Int) : Except ErrorKind Int :=
  if SUCCEEDED hr then Except.ok hr
  else Except.error (ErrorKind.PlatformApi fname (some hr))

/-- `CoInitializer::new` in src/windows.rs: a failing `CoInitializeEx`
panics (modelled as `none`); success yields the initializer. -/
def coInitializerNew (coInitHr : Int) : Option Unit :=
  if SUCCEEDED coInitHr then some () else none

/-- State threaded through a modelled backend operation: the index of the
next native call (used to look up its HRESULT) and the ordered trace of
native calls issued so far. -/
structure OpState where
  idx : Nat
  trace : List NativeCall
deriving DecidableEq, Repr

/-- The native environment: the HRESULT each successive native call
returns, and whether the recycle-bin PIDL is empty (`(*pidl).mkid.cb == 0`
in `bind_to_csidl`). -/
structure NativeEnv where
  hr : Nat → Int
  binPidlEmpty : Bool

/-- A modelled backend computation: state-passing with an `Except` result;
the state (in particular the call trace) survives failure. -/
abbrev OpM (α : Type) := OpState → Except ErrorKind α × OpState

instance : Monad OpM where
  pure a := fun s => (Except.ok a, s)
  bind m f := fun s =>
    match m s with
    | (Except.ok a, s') => f a s'
    | (Except.error e, s') => (Except.error e, s')

/-- Raise an error without issuing a native call. -/
def opThrow {α : Type} (e : ErrorKind) : OpM α := fun s => (Except.error e, s)

/-- Issue one native call: record it in the trace, consume one HRESULT
from the environment and run it through `return_err_on_fail`. -/
def call (env : NativeEnv) (c : NativeCall) : OpM Int := fun s =>
  (return_err_on_fail c.fnName (env.hr s.idx), ⟨s.idx + 1, s.trace ++ [c]⟩)

/-- Run a backend operation from the initial state. -/
def runOp {α : Type} (m : OpM α) : Except ErrorKind α × OpState :=
  m ⟨0, []⟩

/-- `bind_to_csidl` in src/windows.rs: locate the special folder, get the
desktop folder, then either bind to the PIDL or (for an empty PIDL) query
the desktop itself. -/
def bind_to_csidl (env : NativeEnv) : OpM Unit := do
  let _ ← call env NativeCall.SHGetSpecialFolderLocation
  let _ ← call env NativeCall.SHGetDesktopFolder
  if env.binPidlEmpty then
    let _ ← call env NativeCall.QueryInterface
    pure ()
  else
    let _ ← call env NativeCall.BindToObject
    pure ()

/-- `purge_all` in src/windows.rs: bind the recycle bin, create the file
operation, set flags, register a delete for every item, and only when at
least one item was registered perform the batched operation. -/
def purge_all (env : NativeEnv) (items : List TrashItem) : OpM Unit := do
  bind_to_csidl env
  let _ ← call env NativeCall.CoCreateInstance
  let _ ← call env NativeCall.SetOperationFlags
  let at_least_one ← items.foldlM (fun _ _item => do
      let _ ← call env NativeCall.ParseDisplayName
      let _ ← call env NativeCall.SHCreateItemWithParent
      let _ ← call env NativeCall.DeleteItem
      pure true) false
  if at_least_one then
    let _ ← call env NativeCall.PerformOperations
    pure ()
  else
    pure ()

/-- The COM portion of `restore_all` in src/windows.rs, reached only after
the collision pre-check: bind the recycle bin, create the file operation,
set flags, register a move for every item, and perform the batch when the
item list is non-empty. -/
def restore_com_part (env : NativeEnv) (items : List TrashItem) : OpM Unit := do
  bind_to_csidl env
  let _ ← call env NativeCall.CoCreateInstance
  let _ ← call env NativeCall.SetOperationFlags
  let _ ← items.foldlM (fun _ _item => do
      let _ ← call env NativeCall.ParseDisplayName
      let _ ← call env NativeCall.SHCreateItemWithParent
      let _ ← call env NativeCall.SHCreateItemFromParsingName
      let _ ← call env NativeCall.MoveItem
      pure ()) ()
  if items.length > 0 then
    let _ ← call env NativeCall.PerformOperations
    pure ()
  else
    pure ()

/-- `restore_all` in src/windows.rs: walk the collected batch and return a
`RestoreCollision` carrying the first occupied destination and the whole
batch if any destination already exists (`fs` is the live-filesystem
existence predicate); otherwise run the COM move sequence. -/
def windows_restore_all (env : NativeEnv) (fs : FsPath → Bool)
    (items : List TrashItem) : OpM Unit :=
  match items.find? (fun item => fs item.original_path) with
  | some item =>
    opThrow (ErrorKind.RestoreCollision item.original_path items)
  | none => restore_com_part env items

/-- A native record in the recycle bin, as seen through the shell
interfaces: the parsing name (the item's `id`), the in-folder display
name, and the two `PSGUID_DISPLACED` details (original location and
deletion date, the latter as a file-time tick count). -/
structure RawItem where
  parsingName : String
  inFolderName : String
  originalLocation : FsPath
  dateTicks : Nat
deriving DecidableEq, Repr

/-- `get_display_name` in src/windows.rs: `GetDisplayNameOf` followed by
`StrRetToStrW`; `out` is the name the store holds for this item. -/
def get_display_name (env : NativeEnv) (out : String) : OpM String := do
  let _ ← call env NativeCall.GetDisplayNameOf
  let _ ← call env NativeCall.StrRetToStrW
  pure out

/-- `get_detail` in src/windows.rs: `GetDetailsEx` then a
`VariantChangeType` to `VT_BSTR`; `out` is the stored original location. -/
def get_detail (env : NativeEnv) (out : FsPath) : OpM FsPath := do
  let _ ← call env NativeCall.GetDetailsEx
  let _ ← call env NativeCall.VariantChangeType
  pure out

/-- `get_date_unix` plus `variant_time_to_unix_time` in src/windows.rs:
`GetDetailsEx`, `VariantChangeType` to `VT_DATE`, conversion through
system time and file time, then the tick-to-Unix transform. -/
def get_date_unix (env : NativeEnv) (ticks : Nat) : OpM Int := do
  let _ ← call env NativeCall.GetDetailsEx
  let _ ← call env NativeCall.VariantChangeType
  let _ ← call env NativeCall.VariantTimeToSystemTime
  let _ ← call env NativeCall.SystemTimeToFileTime
  pure (windows_ticks_to_unix_seconds ticks)

/-- The `TrashItem` that `list` builds from one native record. -/
def raw_to_item (raw : RawItem) : TrashItem :=
  { id := raw.parsingName
    name := raw.inFolderName
    original_parent := raw.originalLocation
    time_deleted := windows_ticks_to_unix_seconds raw.dateTicks }

/-- One iteration of the enumeration loop of `list` in src/windows.rs:
`Next` the enumerator, read both display names and both details, and push
the assembled `TrashItem` onto the accumulator. -/
def list_body (env : NativeEnv) (acc : List TrashItem) (raw : RawItem) :
    OpM (List TrashItem) := do
  let _ ← call env NativeCall.NextItem
  let id ← get_display_name env raw.parsingName
  let name ← get_display_name env raw.inFolderName
  let orig_loc ← get_detail env raw.originalLocation
  let date_deleted ← get_date_unix env raw.dateTicks
  pure (acc ++ [{ id := id
                  name := name
                  original_parent := orig_loc
                  time_deleted := date_deleted : TrashItem }])

/-- `list` in src/windows.rs under a conforming-enumerator reading: bind
the recycle bin, start the enumeration (`EnumObjects` must return exactly
`S_OK`), run the per-record loop over the store's records, and end with
the final `Next` that terminates the `while`.  The source's literal
status test on each `Next` is modelled verbatim in `list_loop` /
`list_enum` below. -/
def list (env : NativeEnv) (store : List RawItem) : OpM (List TrashItem) := do
  bind_to_csidl env
  let hr ← call env NativeCall.EnumObjects
  if hr ≠ 0 then
    opThrow (ErrorKind.PlatformApi "EnumObjects" (some hr))
  else
    let item_vec ← store.foldlM (list_body env) ([] : List TrashItem)
    let _ ← call env NativeCall.NextItem
    pure item_vec

/-- A native call whose returned status the caller inspects directly
instead of routing it through the `return_err_on_fail!` policy (the
`Next` calls of the enumeration loop, src/windows.rs line 166): record
the call, consume one HRESULT and hand it back raw. -/
def callRaw (env : NativeEnv) (c : NativeCall) : OpM Int := fun s =>
  (Except.ok (env.hr s.idx), ⟨s.idx + 1, s.trace ++ [c]⟩)

/-- The `while (*peidl).Next(..) == S_OK` loop of `list` in
src/windows.rs, with the status test exactly as written in the source:
while records remain, a `Next` returning `S_OK` fetches the next record
and the loop continues; any other return — `S_FALSE` or a failing
HRESULT alike — ends the loop silently with the items collected so far,
producing no error. -/
def list_loop (env : NativeEnv) :
    List RawItem → List TrashItem → OpM (List TrashItem)
  | [], acc => do
      let _ ← callRaw env NativeCall.NextItem
      pure acc
  | raw :: store, acc => do
      let hr ← callRaw env NativeCall.NextItem
      if hr = 0 then do
        let id ← get_display_name env raw.parsingName
        let name ← get_display_name env raw.inFolderName
        let orig_loc ← get_detail env raw.originalLocation
        let date_deleted ← get_date_unix env raw.dateTicks
        list_loop env store
          (acc ++ [{ id := id
                     name := name
                     original_parent := orig_loc
                     time_deleted := date_deleted : TrashItem }])
      else
        pure acc

/-- `list` in src/windows.rs with the enumeration loop modelled by
`list_loop`: bind the recycle bin, require `EnumObjects` to return
exactly `S_OK`, then run the `while Next == S_OK` loop from an empty
item vector. -/
def list_enum (env : NativeEnv) (store : List RawItem) :
    OpM (List TrashItem) := do
  bind_to_csidl env
  let hr ← call env NativeCall.EnumObjects
  if hr ≠ 0 then
    opThrow (ErrorKind.PlatformApi "EnumObjects" (some hr))
  else
    list_loop env store []

/-- The UTF-16 units of the verbatim prefix `\\?\`. -/
def verbatimPfx : List Nat := [92, 92, 63, 92]

/-- The per-path slice computation in `delete_all_canonicalized`
(src/windows.rs): append the terminating NUL to the wide encoding, then
strip the verbatim prefix when the buffer starts with it. -/
def wide_path_slice (widePath : List Nat) : List Nat :=
  let container := widePath ++ [0]
  if verbatimPfx.isPrefixOf container then container.drop 4 else container

/-- `delete_all_canonicalized` in src/windows.rs: bind the recycle bin,
create the file operation, set flags, register a delete for every path
(parsed from its NUL-terminated, prefix-stripped wide form) and perform
the batch unconditionally. -/
def delete_all_canonicalized (env : NativeEnv) (widePaths : List (List Nat)) : OpM Unit := do
  bind_to_csidl env
  let _ ← call env NativeCall.CoCreateInstance
  let _ ← call env NativeCall.SetOperationFlags
  let _ ← widePaths.foldlM (fun _ widePath => do
      let _slice := wide_path_slice widePath
      let _ ← call env NativeCall.SHCreateItemFromParsingName
      let _ ← call env NativeCall.DeleteItem
      pure ()) ()
  let _ ← call env NativeCall.PerformOperations
  pure ()

/-- All HRESULTs the environment hands out are successes. -/
def AllOk (env : NativeEnv) : Prop := ∀ n, SUCCEEDED (env.hr n) = true

/-- Every call an operation adds to the trace satisfies `P`. -/
def TraceOnly {α : Type} (P : NativeCall → Prop) (m : OpM α) : Prop :=
  ∀ s, ∀ c ∈ (m s).2.trace, c ∈ s.trace ∨ P c

/-- Whenever an operation returns a value, that value is `v`. -/
def RetVal {α : Type} (m : OpM α) (v : α) : Prop :=
  ∀ s a, (m s).1 = Except.ok a → a = v

/-- The operation returns a value from every state. -/
def Succeeds {α : Type} (m : OpM α) : Prop :=
  ∀ s, ∃ a, (m s).1 = Except.ok a

/-- An error that a failing native call can produce: a `PlatformApi`
carrying some function name and the failing status code. -/
def PlatformErr : ErrorKind → Prop
  | ErrorKind.PlatformApi _ (some code) => SUCCEEDED code = false
  | _ => False

/-- Every error an operation can return satisfies `PlatformErr`. -/
def ErrOnly {α : Type} (m : OpM α) : Prop :=
  ∀ s e, (m s).1 = Except.error e → PlatformErr e

/-- Sample items and environments used to instantiate the theorems on
concrete inputs. -/
def twinA : TrashItem :=
  { id := "bin-item-a", name := "file.txt"
    original_parent := ["C:", "Users", "artur"], time_deleted := 100 }

def twinB : TrashItem :=
  { id := "bin-item-b", name := "file.txt"
    original_parent := ["C:", "Users", "artur"], time_deleted := 200 }

def soloC : TrashItem :=
  { id := "bin-item-c", name := "other.txt"
    original_parent := ["C:", "Users", "artur"], time_deleted := 300 }

def envOk : NativeEnv := { hr := fun _ => 0, binPidlEmpty := true }

def envFail : NativeEnv := { hr := fun _ => -2147467259, binPidlEmpty := true }

/-- Environment whose three setup calls and `EnumObjects` succeed but
whose fifth native call — the first `Next` of the enumeration — fails
with `E_FAIL`. -/
def envNextFail : NativeEnv :=
  { hr := fun n => if n = 4 then -2147467259 else 0, binPidlEmpty := true }

def fsEmpty : FsPath → Bool := fun _ => false

def fsHasOther : FsPath → Bool :=
  fun p => p == ["C:", "Users", "artur", "other.txt"]

def rawSample : RawItem :=
  { parsingName := "bin-item-a", inFolderName := "file.txt"
    originalLocation := ["C:", "Users", "artur"], dateTicks := 132000000000 }

/-- Item equal to `twinA` in every field except `time_deleted`. -/
def twinA' : TrashItem :=
  { id := "bin-item-a", name := "file.txt"
    original_parent := ["C:", "Users", "artur"], time_deleted := 999 }

theorem run_pure {α : Type} (a : α) (s : OpState) :
    (pure a : OpM α) s = (Except.ok a, s) := rfl

theorem run_bind {α β : Type} (m : OpM α) (f : α → OpM β) (s : OpState) :
    (m >>= f) s = match m s with
      | (Except.ok a, s') => f a s'
      | (Except.error e, s') => (Except.error e, s') := rfl

theorem traceOnly_pure {α : Type} {P : NativeCall → Prop} (a : α) :
    TraceOnly P (pure a : OpM α) :=
  fun _ _ hc => Or.inl hc

theorem traceOnly_opThrow {α : Type} {P : NativeCall → Prop} (e : ErrorKind) :
    TraceOnly P (opThrow e : OpM α) :=
  fun _ _ hc => Or.inl hc

theorem traceOnly_call {P : NativeCall → Prop} (env : NativeEnv)
    (c : NativeCall) (h : P c) : TraceOnly P (call env c) := by
  intro s c' hc'
  simp only [call, List.mem_append, List.mem_singleton] at hc'
  rcases hc' with h' | h'
  · exact Or.inl h'
  · exact Or.inr (h' ▸ h)

theorem traceOnly_bind {α β : Type} {P : NativeCall → Prop}
    {m : OpM α} {f : α → OpM β}
    (hm : TraceOnly P m) (hf : ∀ a, TraceOnly P (f a)) :
    TraceOnly P (m >>= f) := by
  intro s c hc
  rw [run_bind] at hc
  rcases hms : m s with ⟨r, s1⟩
  rw [hms] at hc
  have hs1 : ∀ c', c' ∈ s1.trace → c' ∈ s.trace ∨ P c' := by
    intro c' h'
    exact hm s c' (by rw [hms]; exact h')
  cases r with
  | ok a =>
    rcases hf a s1 c hc with h | h
    · exact hs1 c h
    · exact Or.inr h
  | error e => exact hs1 c hc

theorem traceOnly_bind_ret {α β : Type} {P : NativeCall → Prop}
    {m : OpM α} {f : α → OpM β} {v : α}
    (hm : TraceOnly P m) (hv : RetVal m v) (hf : TraceOnly P (f v)) :
    TraceOnly P (m >>= f) := by
  intro s c hc
  rw [run_bind] at hc
  rcases hms : m s with ⟨r, s1⟩
  rw [hms] at hc
  have hs1 : ∀ c', c' ∈ s1.trace → c' ∈ s.trace ∨ P c' := by
    intro c' h'
    exact hm s c' (by rw [hms]; exact h')
  cases r with
  | ok a =>
    have ha : a = v := hv s a (by rw [hms])
    subst ha
    rcases hf s1 c hc with h | h
    · exact hs1 c h
    · exact Or.inr h
  | error e => exact hs1 c hc

theorem traceOnly_ite {α : Type} {P : NativeCall → Prop} {c : Prop}
    [Decidable c] {m₁ m₂ : OpM α}
    (h₁ : TraceOnly P m₁) (h₂ : TraceOnly P m₂) :
    TraceOnly P (if c then m₁ else m₂) := by
  by_cases h : c
  · simpa [h] using h₁
  · simpa [h] using h₂

theorem traceOnly_foldlM {α β : Type} {P : NativeCall → Prop}
    {f : β → α → OpM β} (hf : ∀ b a, TraceOnly P (f b a)) :
    ∀ (l : List α) (b : β), TraceOnly P (l.foldlM f b)
  | [], b => traceOnly_pure b
  | a :: l, b =>
    traceOnly_bind (hf b a) (fun b' => traceOnly_foldlM hf l b')

theorem retVal_pure {α : Type} (v : α) : RetVal (pure v : OpM α) v := by
  intro s a h
  rw [run_pure] at h
  exact (Except.ok.injEq _ _ ▸ h).symm

theorem retVal_opThrow {α : Type} (e : ErrorKind) (v : α) :
    RetVal (opThrow e : OpM α) v := by
  intro s a h
  simp [opThrow] at h

theorem retVal_bind {α β : Type} {m : OpM α} {f : α → OpM β} {v : α} {w : β}
    (hm : RetVal m v) (hf : RetVal (f v) w) : RetVal (m >>= f) w := by
  intro s b h
  rw [run_bind] at h
  rcases hms : m s with ⟨r, s1⟩
  rw [hms] at h
  cases r with
  | ok a =>
    have ha : a = v := hm s a (by rw [hms])
    subst ha
    exact hf s1 b h
  | error e => simp at h

theorem retVal_bind_any {α β : Type} {m : OpM α} {f : α → OpM β} {w : β}
    (hf : ∀ a, RetVal (f a) w) : RetVal (m >>= f) w := by
  intro s b h
  rw [run_bind] at h
  rcases hms : m s with ⟨r, s1⟩
  rw [hms] at h
  cases r with
  | ok a => exact hf a s1 b h
  | error e => simp at h

theorem retVal_ite {α : Type} {c : Prop} [Decidable c] {m₁ m₂ : OpM α} {v : α}
    (h₁ : RetVal m₁ v) (h₂ : RetVal m₂ v) : RetVal (if c then m₁ else m₂) v := by
  by_cases h : c
  · simpa [h] using h₁
  · simpa [h] using h₂

theorem succeeds_pure {α : Type} (v : α) : Succeeds (pure v : OpM α) :=
  fun _ => ⟨v, rfl⟩

theorem succeeds_call {env : NativeEnv} (c : NativeCall) (h : AllOk env) :
    Succeeds (call env c) := by
  intro s
  exact ⟨env.hr s.idx, by simp [call, return_err_on_fail, h s.idx]⟩

theorem succeeds_bind {α β : Type} {m : OpM α} {f : α → OpM β}
    (hm : Succeeds m) (hf : ∀ a, Succeeds (f a)) : Succeeds (m >>= f) := by
  intro s
  rcases hms : m s with ⟨r, s1⟩
  cases r with
  | ok a =>
    rcases hf a s1 with ⟨b, hb⟩
    exact ⟨b, by rw [run_bind, hms]; exact hb⟩
  | error e =>
    rcases hm s with ⟨a, ha⟩
    rw [hms] at ha
    simp at ha

theorem succeeds_ite {α : Type} {c : Prop} [Decidable c] {m₁ m₂ : OpM α}
    (h₁ : Succeeds m₁) (h₂ : Succeeds m₂) : Succeeds (if c then m₁ else m₂) := by
  by_cases h : c
  · simpa [h] using h₁
  · simpa [h] using h₂

theorem succeeds_foldlM {α β : Type} {f : β → α → OpM β}
    (hf : ∀ b a, Succeeds (f b a)) :
    ∀ (l : List α) (b : β), Succeeds (l.foldlM f b)
  | [], b => succeeds_pure b
  | a :: l, b =>
    succeeds_bind (hf b a) (fun b' => succeeds_foldlM hf l b')

theorem errOnly_pure {α : Type} (v : α) : ErrOnly (pure v : OpM α) := by
  intro s e h
  rw [run_pure] at h
  cases h

theorem errOnly_call (env : NativeEnv) (c : NativeCall) :
    ErrOnly (call env c) := by
  intro s e h
  simp only [call] at h
  unfold return_err_on_fail at h
  cases hs : SUCCEEDED (env.hr s.idx) with
  | true => simp [hs] at h
  | false =>
    simp only [hs, Bool.false_eq_true, if_false, Except.error.injEq] at h
    subst h
    simpa [PlatformErr] using hs

theorem errOnly_bind {α β : Type} {m : OpM α} {f : α → OpM β}
    (hm : ErrOnly m) (hf : ∀ a, ErrOnly (f a)) : ErrOnly (m >>= f) := by
  intro s e h
  rw [run_bind] at h
  rcases hms : m s with ⟨r, s1⟩
  rw [hms] at h
  cases r with
  | ok a => exact hf a s1 e h
  | error e' =>
    have he : e' = e := by simpa using h
    exact he ▸ hm s e' (by rw [hms])

theorem errOnly_ite {α : Type} {c : Prop} [Decidable c] {m₁ m₂ : OpM α}
    (h₁ : ErrOnly m₁) (h₂ : ErrOnly m₂) : ErrOnly (if c then m₁ else m₂) := by
  by_cases h : c
  · simpa [h] using h₁
  · simpa [h] using h₂

theorem errOnly_foldlM {α β : Type} {f : β → α → OpM β}
    (hf : ∀ b a, ErrOnly (f b a)) :
    ∀ (l : List α) (b : β), ErrOnly (l.foldlM f b)
  | [], b => errOnly_pure b
  | a :: l, b =>
    errOnly_bind (hf b a) (fun b' => errOnly_foldlM hf l b')

theorem bind_to_csidl_traceOnly {P : NativeCall → Prop} (env : NativeEnv)
    (h1 : P NativeCall.SHGetSpecialFolderLocation)
    (h2 : P NativeCall.SHGetDesktopFolder)
    (h3 : P NativeCall.QueryInterface)
    (h4 : P NativeCall.BindToObject) :
    TraceOnly P (bind_to_csidl env) := by
  unfold bind_to_csidl
  refine traceOnly_bind (traceOnly_call env _ h1) (fun _ => ?_)
  refine traceOnly_bind (traceOnly_call env _ h2) (fun _ => ?_)
  exact traceOnly_ite
    (traceOnly_bind (traceOnly_call env _ h3) (fun _ => traceOnly_pure _))
    (traceOnly_bind (traceOnly_call env _ h4) (fun _ => traceOnly_pure _))

theorem bind_to_csidl_succeeds (env : NativeEnv) (h : AllOk env) :
    Succeeds (bind_to_csidl env) := by
  unfold bind_to_csidl
  refine succeeds_bind (succeeds_call _ h) (fun _ => ?_)
  refine succeeds_bind (succeeds_call _ h) (fun _ => ?_)
  exact succeeds_ite
    (succeeds_bind (succeeds_call _ h) (fun _ => succeeds_pure _))
    (succeeds_bind (succeeds_call _ h) (fun _ => succeeds_pure _))

theorem bind_to_csidl_errOnly (env : NativeEnv) :
    ErrOnly (bind_to_csidl env) := by
  unfold bind_to_csidl
  refine errOnly_bind (errOnly_call env _) (fun _ => ?_)
  refine errOnly_bind (errOnly_call env _) (fun _ => ?_)
  exact errOnly_ite
    (errOnly_bind (errOnly_call env _) (fun _ => errOnly_pure _))
    (errOnly_bind (errOnly_call env _) (fun _ => errOnly_pure _))

theorem purge_all_errOnly (env : NativeEnv) (items : List TrashItem) :
    ErrOnly (purge_all env items) := by
  unfold purge_all
  refine errOnly_bind (bind_to_csidl_errOnly env) (fun _ => ?_)
  refine errOnly_bind (errOnly_call env _) (fun _ => ?_)
  refine errOnly_bind (errOnly_call env _) (fun _ => ?_)
  refine errOnly_bind (errOnly_foldlM (fun b a => ?_) items false) (fun alo => ?_)
  · refine errOnly_bind (errOnly_call env _) (fun _ => ?_)
    refine errOnly_bind (errOnly_call env _) (fun _ => ?_)
    exact errOnly_bind (errOnly_call env _) (fun _ => errOnly_pure _)
  · exact errOnly_ite
      (errOnly_bind (errOnly_call env _) (fun _ => errOnly_pure _))
      (errOnly_pure _)

theorem purge_all_succeeds (env : NativeEnv) (items : List TrashItem)
    (h : AllOk env) : Succeeds (purge_all env items) := by
  unfold purge_all
  refine succeeds_bind (bind_to_csidl_succeeds env h) (fun _ => ?_)
  refine succeeds_bind (succeeds_call _ h) (fun _ => ?_)
  refine succeeds_bind (succeeds_call _ h) (fun _ => ?_)
  refine succeeds_bind (succeeds_foldlM (fun b a => ?_) items false) (fun alo => ?_)
  · refine succeeds_bind (succeeds_call _ h) (fun _ => ?_)
    refine succeeds_bind (succeeds_call _ h) (fun _ => ?_)
    exact succeeds_bind (succeeds_call _ h) (fun _ => succeeds_pure _)
  · exact succeeds_ite
      (succeeds_bind (succeeds_call _ h) (fun _ => succeeds_pure _))
      (succeeds_pure _)

theorem purge_all_nil_noPerform (env : NativeEnv) :
    TraceOnly (fun c => c ≠ NativeCall.PerformOperations) (purge_all env []) := by
  unfold purge_all
  refine traceOnly_bind
    (bind_to_csidl_traceOnly env (by decide) (by decide) (by decide) (by decide))
    (fun _ => ?_)
  refine traceOnly_bind (traceOnly_call env _ (by decide)) (fun _ => ?_)
  refine traceOnly_bind (traceOnly_call env _ (by decide)) (fun _ => ?_)
  refine traceOnly_bind_ret (traceOnly_pure _) (retVal_pure _) ?_
  exact traceOnly_pure _

theorem restore_com_part_errOnly (env : NativeEnv) (items : List TrashItem) :
    ErrOnly (restore_com_part env items) := by
  unfold restore_com_part
  refine errOnly_bind (bind_to_csidl_errOnly env) (fun _ => ?_)
  refine errOnly_bind (errOnly_call env _) (fun _ => ?_)
  refine errOnly_bind (errOnly_call env _) (fun _ => ?_)
  refine errOnly_bind (errOnly_foldlM (fun b a => ?_) items ()) (fun _ => ?_)
  · refine errOnly_bind (errOnly_call env _) (fun _ => ?_)
    refine errOnly_bind (errOnly_call env _) (fun _ => ?_)
    refine errOnly_bind (errOnly_call env _) (fun _ => ?_)
    exact errOnly_bind (errOnly_call env _) (fun _ => errOnly_pure _)
  · exact errOnly_ite
      (errOnly_bind (errOnly_call env _) (fun _ => errOnly_pure _))
      (errOnly_pure _)

theorem restore_com_part_succeeds (env : NativeEnv) (items : List TrashItem)
    (h : AllOk env) : Succeeds (restore_com_part env items) := by
  unfold restore_com_part
  refine succeeds_bind (bind_to_csidl_succeeds env h) (fun _ => ?_)
  refine succeeds_bind (succeeds_call _ h) (fun _ => ?_)
  refine succeeds_bind (succeeds_call _ h) (fun _ => ?_)
  refine succeeds_bind (succeeds_foldlM (fun b a => ?_) items ()) (fun _ => ?_)
  · refine succeeds_bind (succeeds_call _ h) (fun _ => ?_)
    refine succeeds_bind (succeeds_call _ h) (fun _ => ?_)
    refine succeeds_bind (succeeds_call _ h) (fun _ => ?_)
    exact succeeds_bind (succeeds_call _ h) (fun _ => succeeds_pure _)
  · exact succeeds_ite
      (succeeds_bind (succeeds_call _ h) (fun _ => succeeds_pure _))
      (succeeds_pure _)

theorem restore_com_part_nil_noPerform (env : NativeEnv) :
    TraceOnly (fun c => c ≠ NativeCall.PerformOperations)
      (restore_com_part env []) := by
  unfold restore_com_part
  refine traceOnly_bind
    (bind_to_csidl_traceOnly env (by decide) (by decide) (by decide) (by decide))
    (fun _ => ?_)
  refine traceOnly_bind (traceOnly_call env _ (by decide)) (fun _ => ?_)
  refine traceOnly_bind (traceOnly_call env _ (by decide)) (fun _ => ?_)
  refine traceOnly_bind (traceOnly_pure _) (fun _ => ?_)
  exact traceOnly_pure _

theorem get_display_name_retVal (env : NativeEnv) (out : String) :
    RetVal (get_display_name env out) out := by
  unfold get_display_name
  exact retVal_bind_any (fun _ => retVal_bind_any (fun _ => retVal_pure _))

theorem get_detail_retVal (env : NativeEnv) (out : FsPath) :
    RetVal (get_detail env out) out := by
  unfold get_detail
  exact retVal_bind_any (fun _ => retVal_bind_any (fun _ => retVal_pure _))

theorem get_date_unix_retVal (env : NativeEnv) (ticks : Nat) :
    RetVal (get_date_unix env ticks) (windows_ticks_to_unix_seconds ticks) := by
  unfold get_date_unix
  exact retVal_bind_any (fun _ => retVal_bind_any (fun _ =>
    retVal_bind_any (fun _ => retVal_bind_any (fun _ => retVal_pure _))))

theorem get_display_name_traceOnly (env : NativeEnv) (out : String) :
    TraceOnly (fun c => c.isMutation = false) (get_display_name env out) := by
  unfold get_display_name
  refine traceOnly_bind (traceOnly_call env _ rfl) (fun _ => ?_)
  exact traceOnly_bind (traceOnly_call env _ rfl) (fun _ => traceOnly_pure _)

theorem get_detail_traceOnly (env : NativeEnv) (out : FsPath) :
    TraceOnly (fun c => c.isMutation = false) (get_detail env out) := by
  unfold get_detail
  refine traceOnly_bind (traceOnly_call env _ rfl) (fun _ => ?_)
  exact traceOnly_bind (traceOnly_call env _ rfl) (fun _ => traceOnly_pure _)

theorem get_date_unix_traceOnly (env : NativeEnv) (ticks : Nat) :
    TraceOnly (fun c => c.isMutation = false) (get_date_unix env ticks) := by
  unfold get_date_unix
  refine traceOnly_bind (traceOnly_call env _ rfl) (fun _ => ?_)
  refine traceOnly_bind (traceOnly_call env _ rfl) (fun _ => ?_)
  refine traceOnly_bind (traceOnly_call env _ rfl) (fun _ => ?_)
  exact traceOnly_bind (traceOnly_call env _ rfl) (fun _ => traceOnly_pure _)

theorem list_body_retVal (env : NativeEnv) (acc : List TrashItem)
    (raw : RawItem) :
    RetVal (list_body env acc raw) (acc ++ [raw_to_item raw]) := by
  unfold list_body
  refine retVal_bind_any (fun _ => ?_)
  refine retVal_bind (get_display_name_retVal env raw.parsingName) ?_
  refine retVal_bind (get_display_name_retVal env raw.inFolderName) ?_
  refine retVal_bind (get_detail_retVal env raw.originalLocation) ?_
  refine retVal_bind (get_date_unix_retVal env raw.dateTicks) ?_
  exact retVal_pure _

theorem list_body_traceOnly (env : NativeEnv) (acc : List TrashItem)
    (raw : RawItem) :
    TraceOnly (fun c => c.isMutation = false) (list_body env acc raw) := by
  unfold list_body
  refine traceOnly_bind (traceOnly_call env _ rfl) (fun _ => ?_)
  refine traceOnly_bind (get_display_name_traceOnly env _) (fun _ => ?_)
  refine traceOnly_bind (get_display_name_traceOnly env _) (fun _ => ?_)
  refine traceOnly_bind (get_detail_traceOnly env _) (fun _ => ?_)
  refine traceOnly_bind (get_date_unix_traceOnly env _) (fun _ => ?_)
  exact traceOnly_pure _

theorem list_fold_retVal (env : NativeEnv) :
    ∀ (store : List RawItem) (acc : List TrashItem),
      RetVal (store.foldlM (list_body env) acc) (acc ++ store.map raw_to_item)
  | [], acc => by
    simpa using retVal_pure acc
  | raw :: store, acc => by
    have h := @retVal_bind (List TrashItem) (List TrashItem)
      (list_body env acc raw)
      (fun b => store.foldlM (list_body env) b)
      (acc ++ [raw_to_item raw])
      (acc ++ [raw_to_item raw] ++ store.map raw_to_item)
      (list_body_retVal env acc raw)
      (list_fold_retVal env store (acc ++ [raw_to_item raw]))
    simpa [List.map_cons, List.append_assoc, List.singleton_append] using h

theorem list_retVal (env : NativeEnv) (store : List RawItem) :
    RetVal (list env store) (store.map raw_to_item) := by
  unfold list
  refine retVal_bind_any (fun _ => ?_)
  refine retVal_bind_any (fun hr => ?_)
  refine retVal_ite (retVal_opThrow _ _) ?_
  refine retVal_bind (list_fold_retVal env store []) ?_
  exact retVal_bind_any (fun _ => retVal_pure _)

theorem find_twin_nodup_none :
    ∀ (l : List TrashItem) (seen : List FsPath),
      (l.map TrashItem.original_path).Nodup →
      (∀ p ∈ l.map TrashItem.original_path, p ∉ seen) →
      find_twin seen l = none
  | [], _ => by
    intro _ _
    rfl
  | item :: rest, seen => by
    intro hnd hall
    have hmem : item.original_path ∉ seen := hall _ (by simp)
    simp only [find_twin, if_neg hmem]
    simp only [List.map_cons, List.nodup_cons] at hnd
    refine find_twin_nodup_none rest _ hnd.2 ?_
    intro p hp
    simp only [List.mem_cons, not_or]
    refine ⟨?_, hall p (by simp [hp])⟩
    rintro rfl
    exact hnd.1 hp

theorem find_twin_none_nodup :
    ∀ (l : List TrashItem) (seen : List FsPath),
      seen.Nodup → find_twin seen l = none →
      (seen ++ l.map TrashItem.original_path).Nodup
  | [], seen => by
    intro hseen _
    simpa using hseen
  | item :: rest, seen => by
    intro hseen h
    by_cases hmem : item.original_path ∈ seen
    · simp [find_twin, hmem] at h
    · simp only [find_twin, if_neg hmem] at h
      have hrec := find_twin_none_nodup rest (item.original_path :: seen)
        (by simp [List.nodup_cons, hmem, hseen]) h
      exact (List.perm_middle.nodup_iff).mpr hrec

theorem find_twin_some_count :
    ∀ (l : List TrashItem) (seen : List FsPath) (p : FsPath),
      find_twin seen l = some p →
      2 ≤ seen.count p + (l.map TrashItem.original_path).count p
  | [], _, _ => by
    intro h
    cases h
  | item :: rest, seen, p => by
    intro h
    by_cases hmem : item.original_path ∈ seen
    · simp only [find_twin, if_pos hmem, Option.some.injEq] at h
      subst h
      have h1 : seen.count item.original_path ≠ 0 := by
        simpa [List.count_eq_zero] using hmem
      simp only [List.map_cons, List.count_cons_self]
      omega
    · simp only [find_twin, if_neg hmem] at h
      have hrec := find_twin_some_count rest (item.original_path :: seen) p h
      by_cases hpe : p = item.original_path
      · subst hpe
        simp only [List.count_cons_self] at hrec
        simp only [List.map_cons, List.count_cons_self]
        omega
      · rw [List.count_cons_of_ne hpe] at hrec
        simp only [List.map_cons]
        rw [List.count_cons_of_ne hpe]
        omega

theorem list_traceOnly (env : NativeEnv) (store : List RawItem) :
    TraceOnly (fun c => c.isMutation = false) (list env store) := by
  unfold list
  refine traceOnly_bind (bind_to_csidl_traceOnly env rfl rfl rfl rfl) (fun _ => ?_)
  refine traceOnly_bind (traceOnly_call env _ rfl) (fun hr => ?_)
  refine traceOnly_ite (traceOnly_opThrow _) ?_
  refine traceOnly_bind
    (traceOnly_foldlM (fun b a => list_body_traceOnly env b a) store []) (fun _ => ?_)
  exact traceOnly_bind (traceOnly_call env _ rfl) (fun _ => traceOnly_pure _)

theorem verbatimPfx_isPrefixOf_cons4 (a b c d : Nat) (l : List Nat) :
    verbatimPfx.isPrefixOf (a :: b :: c :: d :: l) = true ↔
      (92 = a ∧ 92 = b ∧ 63 = c ∧ 92 = d) := by
  simp [verbatimPfx, List.isPrefixOf]

/-- C1: a batch with two items sharing an `original_path()` makes
`restore_all` fail with `RestoreTwins` carrying a duplicated path and the
complete batch, without invoking the backend (the result is the same for
every backend); a batch with pairwise-distinct paths is passed unchanged
to the backend.  Twin detection is characterised through `find_twin`. -/
theorem C1_twin_precheck (items : List TrashItem) :
    ((items.map TrashItem.original_path).Nodup ↔ find_twin [] items = none) ∧
    (∀ p, find_twin [] items = some p →
       2 ≤ (items.map TrashItem.original_path).count p ∧
       ∀ backend, restore_all backend items =
         Except.error (ErrorKind.RestoreTwins p items)) ∧
    (find_twin [] items = none →
       ∀ backend, restore_all backend items = backend items) := by
  refine ⟨⟨?_, ?_⟩, ?_, ?_⟩
  · intro hnd
    exact find_twin_nodup_none items [] hnd (by simp)
  · intro hnone
    simpa using find_twin_none_nodup items [] List.nodup_nil hnone
  · intro p hp
    refine ⟨?_, ?_⟩
    · simpa using find_twin_some_count items [] p hp
    · intro backend
      unfold restore_all
      rw [hp]
  · intro hnone backend
    unfold restore_all
    rw [hnone]

theorem C1_twin_precheck_witness :
    2 ≤ (([twinA, twinB].map TrashItem.original_path).count
          (["C:", "Users", "artur", "file.txt"] : FsPath)) ∧
    restore_all (fun _ => Except.ok ()) [twinA, twinB] =
      Except.error (ErrorKind.RestoreTwins
        ["C:", "Users", "artur", "file.txt"] [twinA, twinB]) := by
  have h := (C1_twin_precheck [twinA, twinB]).2.1
    (["C:", "Users", "artur", "file.txt"] : FsPath) rfl
  exact ⟨h.1, h.2 _⟩

/-- C4: `TrashItem` equality holds exactly when the `id` fields agree
(whatever the other fields hold), and hashing feeds only the `id` to the
hasher, so id-equal items (in particular `==`-equal items) hash alike. -/
theorem C4_eq_hash_by_id (a b : TrashItem) :
    (TrashItem.beq a b = true ↔ a.id = b.id) ∧
    (∀ (H : Type) (idHash : String → H → H) (state : H),
       a.id = b.id →
       TrashItem.hashOnly idHash a state = TrashItem.hashOnly idHash b state) ∧
    (∀ (H : Type) (idHash : String → H → H) (state : H),
       TrashItem.beq a b = true →
       TrashItem.hashOnly idHash a state = TrashItem.hashOnly idHash b state) := by
  refine ⟨?_, ?_, ?_⟩
  · simp [TrashItem.beq]
  · intro H idHash state hid
    simp [TrashItem.hashOnly, hid]
  · intro H idHash state hbeq
    have hid : a.id = b.id := by simpa [TrashItem.beq] using hbeq
    simp [TrashItem.hashOnly, hid]

theorem C4_eq_hash_by_id_witness :
    TrashItem.beq twinA twinA' = true ∧
    twinA.time_deleted ≠ twinA'.time_deleted ∧
    TrashItem.hashOnly (fun s n => n + s.length) twinA 7 =
      TrashItem.hashOnly (fun s n => n + s.length) twinA' 7 := by
  refine ⟨(C4_eq_hash_by_id twinA twinA').1.mpr rfl, by decide, ?_⟩
  exact (C4_eq_hash_by_id twinA twinA').2.1 Nat (fun s n => n + s.length) 7 rfl

/-- C5: `original_path()` is exactly the join of `original_parent` and
`name`, and depends on nothing but those two fields (it is a pure
function of them). -/
theorem C5_original_path_is_join (item : TrashItem) (parent : FsPath)
    (name : String) (hp : item.original_parent = parent)
    (hn : item.name = name) :
    item.original_path = FsPath.join parent name := by
  unfold TrashItem.original_path
  rw [hp, hn]

theorem C5_original_path_is_join_witness :
    TrashItem.original_path twinA =
      FsPath.join ["C:", "Users", "artur"] "file.txt" :=
  C5_original_path_is_join twinA _ _ rfl rfl

/-- C6: for every representable 64-bit tick count the conversion equals
truncating division by 10^7 followed by subtraction of 11644473600,
computed exactly: neither the `u64 -> i64` cast nor the `i64` subtraction
wraps. -/
theorem C6_ticks_to_unix_exact (t : Nat) (h : t < 18446744073709551616) :
    windows_ticks_to_unix_seconds t =
      ((t / 10000000 : Nat) : Int) - 11644473600 := by
  unfold windows_ticks_to_unix_seconds u64_to_i64 i64_wrap
  have hq : t / 10000000 < 9223372036854775808 := by omega
  have hq2 : t / 10000000 % 18446744073709551616 = t / 10000000 :=
    Nat.mod_eq_of_lt (by omega)
  rw [hq2, if_pos hq]
  omega

theorem C6_ticks_to_unix_exact_witness :
    windows_ticks_to_unix_seconds 132000000000 = -11644460400 := by
  have h := C6_ticks_to_unix_exact 132000000000 (by norm_num)
  rw [h]
  norm_num

/-- C10: the wide buffer handed to the shell parsing call is the UTF-16
path plus one terminating NUL, with the four-unit verbatim prefix
stripped exactly when the path starts with it and no other change. -/
theorem C10_verbatim_strip (wide : List Nat) :
    (verbatimPfx.isPrefixOf wide = true →
       wide_path_slice wide = wide.drop 4 ++ [0]) ∧
    (verbatimPfx.isPrefixOf wide = false →
       wide_path_slice wide = wide ++ [0]) := by
  rcases wide with _ | ⟨a, _ | ⟨b, _ | ⟨c, _ | ⟨d, rest⟩⟩⟩⟩
  · exact ⟨fun h => by simp [verbatimPfx, List.isPrefixOf] at h,
           fun _ => by decide⟩
  · constructor
    · intro h
      simp [verbatimPfx, List.isPrefixOf] at h
    · intro _
      simp [wide_path_slice, verbatimPfx, List.isPrefixOf]
  · constructor
    · intro h
      simp [verbatimPfx, List.isPrefixOf] at h
    · intro _
      simp [wide_path_slice, verbatimPfx, List.isPrefixOf]
  · constructor
    · intro h
      simp [verbatimPfx, List.isPrefixOf] at h
    · intro _
      simp [wide_path_slice, verbatimPfx, List.isPrefixOf]
  · constructor
    · intro h
      obtain ⟨h1, h2, h3, h4⟩ := (verbatimPfx_isPrefixOf_cons4 a b c d rest).mp h
      subst h1; subst h2; subst h3; subst h4
      simp [wide_path_slice, verbatimPfx, List.isPrefixOf]
    · intro h
      have hcont : verbatimPfx.isPrefixOf (a :: b :: c :: d :: (rest ++ [0])) = false := by
        cases hx : verbatimPfx.isPrefixOf (a :: b :: c :: d :: (rest ++ [0])) with
        | false => rfl
        | true =>
          have hp := (verbatimPfx_isPrefixOf_cons4 a b c d (rest ++ [0])).mp hx
          have ht : verbatimPfx.isPrefixOf (a :: b :: c :: d :: rest) = true :=
            (verbatimPfx_isPrefixOf_cons4 a b c d rest).mpr hp
          rw [ht] at h
          cases h
      simp [wide_path_slice, hcont]

theorem C10_verbatim_strip_witness :
    wide_path_slice [92, 92, 63, 92, 65] = [65, 0] ∧
    wide_path_slice [67, 58, 92, 102] = [67, 58, 92, 102, 0] := by
  constructor
  · exact ((C10_verbatim_strip [92, 92, 63, 92, 65]).1 (by decide)).trans (by decide)
  · exact ((C10_verbatim_strip [67, 58, 92, 102]).2 (by decide)).trans (by decide)

/-- C3: whenever the Windows `restore_all` returns a `RestoreCollision`,
no native call has been issued at all (empty trace, so nothing was
restored or mutated), `remaining_items` is the entire supplied batch, and
the reported path is the `original_path()` of the first item, in supplied
order, whose destination exists. -/
theorem C3_collision_precheck (env : NativeEnv) (fs : FsPath → Bool)
    (items : List TrashItem) (p : FsPath) (rem : List TrashItem)
    (h : (runOp (windows_restore_all env fs items)).1 =
         Except.error (ErrorKind.RestoreCollision p rem)) :
    (runOp (windows_restore_all env fs items)).2.trace = [] ∧
    rem = items ∧
    (items.find? (fun item => fs item.original_path)).map
      TrashItem.original_path = some p := by
  have hw : windows_restore_all env fs items =
      match items.find? (fun item => fs item.original_path) with
      | some item => opThrow (ErrorKind.RestoreCollision item.original_path items)
      | none => restore_com_part env items := rfl
  cases hfind : items.find? (fun item => fs item.original_path) with
  | none =>
    have heq : windows_restore_all env fs items = restore_com_part env items := by
      rw [hw, hfind]
    rw [heq] at h
    exact (restore_com_part_errOnly env items ⟨0, []⟩ _ h).elim
  | some it =>
    have heq : windows_restore_all env fs items =
        opThrow (ErrorKind.RestoreCollision it.original_path items) := by
      rw [hw, hfind]
    rw [heq] at h ⊢
    simp only [runOp, opThrow, Except.error.injEq,
      ErrorKind.RestoreCollision.injEq] at h
    obtain ⟨hp, hrem⟩ := h
    subst hp
    subst hrem
    exact ⟨rfl, rfl, rfl⟩

theorem C3_collision_precheck_witness :
    (runOp (windows_restore_all envOk fsHasOther [soloC])).2.trace = [] ∧
    [soloC] = [soloC] ∧
    (([soloC].find? (fun item => fsHasOther item.original_path)).map
      TrashItem.original_path) = some (TrashItem.original_path soloC) :=
  C3_collision_precheck envOk fsHasOther [soloC]
    (TrashItem.original_path soloC) [soloC] rfl

/-- C2 (counterexample): a batch whose second item collides produces a
`RestoreCollision` whose `remaining_items` is the whole batch headed by
the non-colliding first item, so the colliding item is not the first
element of `remaining_items`. -/
theorem C2_collision_first_cex :
    runOp (windows_restore_all envOk fsHasOther [twinA, soloC]) =
      (Except.error (ErrorKind.RestoreCollision
        ["C:", "Users", "artur", "other.txt"] [twinA, soloC]), ⟨0, []⟩) ∧
    [twinA, soloC].head? = some twinA ∧
    twinA.id ≠ soloC.id ∧
    TrashItem.original_path twinA ≠ ["C:", "Users", "artur", "other.txt"] := by
  refine ⟨rfl, rfl, by decide, by decide⟩

/-- C2 (amended): when some destination is occupied, the Windows
`restore_all` fails before any native call with a `RestoreCollision`
whose path is the `original_path()` of the first occupied item in
supplied order and whose `remaining_items` is the entire supplied batch
in original order (no item has been restored at that point); the
colliding item keeps its original position in that list. -/
theorem C2_collision_reports_batch (env : NativeEnv) (fs : FsPath → Bool)
    (items : List TrashItem)
    (h : items.any (fun item => fs item.original_path) = true) :
    (items.find? (fun item => fs item.original_path)).isSome = true ∧
    ∀ p, (items.find? (fun item => fs item.original_path)).map
        TrashItem.original_path = some p →
      runOp (windows_restore_all env fs items) =
        (Except.error (ErrorKind.RestoreCollision p items), ⟨0, []⟩) := by
  constructor
  · simp only [List.find?_isSome]
    simpa [List.any_eq_true] using h
  · intro p hp
    cases hfind : items.find? (fun item => fs item.original_path) with
    | none => rw [hfind] at hp; cases hp
    | some it =>
      rw [hfind] at hp
      simp only [Option.map_some', Option.some.injEq] at hp
      subst hp
      unfold windows_restore_all
      rw [hfind]
      rfl

theorem C2_collision_reports_batch_witness :
    (([twinA, soloC].find? (fun item => fsHasOther item.original_path)).isSome
      = true) ∧
    runOp (windows_restore_all envOk fsHasOther [twinA, soloC]) =
      (Except.error (ErrorKind.RestoreCollision
        (TrashItem.original_path soloC) [twinA, soloC]), ⟨0, []⟩) := by
  have h := C2_collision_reports_batch envOk fsHasOther [twinA, soloC] rfl
  exact ⟨h.1, h.2 (TrashItem.original_path soloC) rfl⟩

/-- C7 (counterexample): with a conforming setup but a first `Next`
failing with `E_FAIL`, the enumeration issues that failing native call
(it is the fifth call, and its status is a failure) yet returns `Ok`
with no items — no `PlatformApi` error is produced for it, so not every
failing native call turns into an error. -/
theorem C7_next_silent_cex :
    runOp (list_enum envNextFail [rawSample]) =
      (Except.ok [],
       ⟨5, [NativeCall.SHGetSpecialFolderLocation,
            NativeCall.SHGetDesktopFolder,
            NativeCall.QueryInterface,
            NativeCall.EnumObjects,
            NativeCall.NextItem]⟩) ∧
    SUCCEEDED (envNextFail.hr 4) = false :=
  ⟨rfl, rfl⟩

/-- C7 (amended): every native call whose status is routed through the
`return_err_on_fail` policy and fails makes the operation return a
`PlatformApi` error carrying the call's name and numeric status (success
passes through); the sole panic-like path is `CoInitializer::new` on a
failing `CoInitializeEx`; every error `purge_all` can return is such a
`PlatformApi` error of a failing call.  The exception is the
enumeration's `Next`, whose status the loop tests against `S_OK`
directly: any non-`S_OK` return — a failing HRESULT included — ends the
loop silently with the items collected so far instead of producing an
error. -/
theorem C7_platform_error_policy (fname : String) (hr : Int) (env : NativeEnv)
    (items : List TrashItem) (raw : RawItem) (store : List RawItem)
    (acc : List TrashItem) :
    (SUCCEEDED hr = false →
       return_err_on_fail fname hr =
         Except.error (ErrorKind.PlatformApi fname (some hr))) ∧
    (SUCCEEDED hr = true → return_err_on_fail fname hr = Except.ok hr) ∧
    (coInitializerNew hr = none ↔ SUCCEEDED hr = false) ∧
    (∀ s e, (purge_all env items s).1 = Except.error e → PlatformErr e) ∧
    (∀ s, env.hr s.idx ≠ 0 →
       list_loop env (raw :: store) acc s =
         (Except.ok acc, ⟨s.idx + 1, s.trace ++ [NativeCall.NextItem]⟩)) := by
  refine ⟨?_, ?_, ?_, ?_, ?_⟩
  · intro hf
    simp [return_err_on_fail, hf]
  · intro ht
    simp [return_err_on_fail, ht]
  · unfold coInitializerNew
    cases hs : SUCCEEDED hr <;> simp [hs]
  · exact purge_all_errOnly env items
  · intro s hne
    simp [list_loop, run_bind, callRaw, hne, run_pure]

theorem C7_platform_error_policy_witness :
    return_err_on_fail "CoCreateInstance" (-2147467259) =
      Except.error (ErrorKind.PlatformApi "CoCreateInstance"
        (some (-2147467259))) ∧
    return_err_on_fail "SHGetDesktopFolder" 0 = Except.ok 0 ∧
    (coInitializerNew (-2147467259) = none ↔ SUCCEEDED (-2147467259) = false) ∧
    PlatformErr (ErrorKind.PlatformApi "SHGetSpecialFolderLocation"
      (some (-2147467259))) ∧
    list_loop envFail [rawSample] [] ⟨0, []⟩ =
      (Except.ok [], ⟨1, [NativeCall.NextItem]⟩) := by
  refine ⟨(C7_platform_error_policy "CoCreateInstance" (-2147467259) envFail []
            rawSample [] []).1 rfl,
          (C7_platform_error_policy "SHGetDesktopFolder" 0 envFail []
            rawSample [] []).2.1 rfl,
          (C7_platform_error_policy "x" (-2147467259) envFail []
            rawSample [] []).2.2.1,
          (C7_platform_error_policy "x" 0 envFail []
            rawSample [] []).2.2.2.1 ⟨0, []⟩ _ rfl,
          (C7_platform_error_policy "x" 0 envFail []
            rawSample [] []).2.2.2.2 ⟨0, []⟩ (by decide)⟩

/-- C8: the enumeration issues no delete/move/perform call (every call it
adds to the trace is non-mutating), and any two successful runs over the
same store — in particular two consecutive calls with no intervening
mutation — return items with identical `id` sequences. -/
theorem C8_list_readonly_idempotent (env env2 : NativeEnv)
    (store : List RawItem) :
    (∀ s, ∀ c ∈ ((list env store) s).2.trace,
       c ∈ s.trace ∨ c.isMutation = false) ∧
    (∀ items1 items2,
       (runOp (list env store)).1 = Except.ok items1 →
       (runOp (list env2 store)).1 = Except.ok items2 →
       items1.map TrashItem.id = items2.map TrashItem.id) := by
  constructor
  · exact list_traceOnly env store
  · intro items1 items2 h1 h2
    have e1 := list_retVal env store ⟨0, []⟩ items1 h1
    have e2 := list_retVal env2 store ⟨0, []⟩ items2 h2
    rw [e1, e2]

theorem C8_list_readonly_idempotent_witness :
    ([raw_to_item rawSample].map TrashItem.id) =
      ([raw_to_item rawSample].map TrashItem.id) :=
  (C8_list_readonly_idempotent envOk envOk [rawSample]).2
    [raw_to_item rawSample] [raw_to_item rawSample] rfl rfl

/-- C9: with an empty item list, `purge_all` and the Windows
`restore_all` return `Ok(())` (when the setup calls succeed) and never
invoke `PerformOperations`, so no batched file operation runs. -/
theorem C9_empty_batch_no_perform (env : NativeEnv) (fs : FsPath → Bool)
    (h : AllOk env) :
    (runOp (purge_all env [])).1 = Except.ok () ∧
    (∀ c ∈ (runOp (purge_all env [])).2.trace,
       c ≠ NativeCall.PerformOperations) ∧
    (runOp (windows_restore_all env fs [])).1 = Except.ok () ∧
    (∀ c ∈ (runOp (windows_restore_all env fs [])).2.trace,
       c ≠ NativeCall.PerformOperations) := by
  have hw : windows_restore_all env fs [] = restore_com_part env [] := rfl
  refine ⟨?_, ?_, ?_, ?_⟩
  · obtain ⟨a, ha⟩ := purge_all_succeeds env [] h ⟨0, []⟩
    cases a
    exact ha
  · intro c hc
    rcases purge_all_nil_noPerform env ⟨0, []⟩ c hc with h' | h'
    · exact absurd h' (List.not_mem_nil c)
    · exact h'
  · rw [hw]
    obtain ⟨a, ha⟩ := restore_com_part_succeeds env [] h ⟨0, []⟩
    cases a
    exact ha
  · rw [hw]
    intro c hc
    rcases restore_com_part_nil_noPerform env ⟨0, []⟩ c hc with h' | h'
    · exact absurd h' (List.not_mem_nil c)
    · exact h'

theorem C9_empty_batch_no_perform_witness :
    (runOp (purge_all envOk [])).1 = Except.ok () ∧
    (∀ c ∈ (runOp (purge_all envOk [])).2.trace,
       c ≠ NativeCall.PerformOperations) ∧
    (runOp (windows_restore_all envOk fsEmpty [])).1 = Except.ok () ∧
    (∀ c ∈ (runOp (windows_restore_all envOk fsEmpty [])).2.trace,
       c ≠ NativeCall.PerformOperations) :=
  C9_empty_batch_no_perform envOk fsEmpty (fun _ => rfl)

end Trash
